import Mathlib

/-!
A shallow embedding of the core of the Real-time System Monitor Dashboard
(Rust sources under `src/`): the bounded metric-history engine
(`src/system/monitor.rs`), the dashboard tab/scroll state machine
(`src/ui/dashboard.rs`), the input mapping and debounce layer
(`src/ui/events.rs`), and one iteration of the cooperative event loop
(`src/main.rs`, `run_app`).

Modelling conventions: `VecDeque` becomes `List` (front = oldest,
`push_back` = append, `pop_front` = tail); `u64`/`usize` become `Nat`
(`saturating_sub` is `Nat` truncated subtraction); `Instant` becomes a
`Nat` millisecond timestamp passed explicitly; `f32` arithmetic is
modelled over `ℚ` (the claims touched only concern the zero-divisor
guard, which is representation independent); fallible operations return
`Option`.  The external `sysinfo::System` handle is not part of the model:
its readings on a given refresh enter as an explicit `SysReading` input.
-/

namespace RTSM

/-- One evicting push, from `SystemMonitor::update_cpu_history` /
`update_memory_history` (monitor.rs:85-88, 107-110): `push_back(x)` then,
if `len() > max_history`, a single `pop_front()`. -/
def pushEvict (cap : Nat) (h : List α) (x : α) : List α :=
  let h2 := h ++ [x]
  if cap < h2.length then h2.tail else h2

/-- The trimming loop of `SystemMonitor::set_max_history`
(monitor.rs:220-225): `while len() > max { pop_front() }`, written
structurally on the list (the loop body only ever runs on a nonempty
deque, since `len() > max ≥ 0` forces `len() > 0`). -/
def trimFront (cap : Nat) : List α → List α
  | [] => []
  | x :: xs => if cap < (x :: xs).length then trimFront cap xs else x :: xs

/-- The readings the `sysinfo::System` handle supplies to one refresh;
the external provider is out of the model, so they are explicit inputs. -/
structure SysReading where
  timestamp : Nat
  cpu_usage : ℚ
  cpu_frequency : Nat
  mem_used : Nat
  mem_total : Nat
  deriving DecidableEq

/-- `CpuData` (monitor.rs:5-10), timestamps as `Nat`, `f32` as `ℚ`. -/
structure CpuData where
  timestamp : Nat
  usage : ℚ
  frequency : Nat
  deriving DecidableEq

/-- `MemoryData` (monitor.rs:12-18). -/
structure MemoryData where
  timestamp : Nat
  used : Nat
  total : Nat
  usage_percent : ℚ
  deriving DecidableEq

/-- The `CpuData` sample built by `update_cpu_history` (monitor.rs:78-83)
from the current system readings. -/
def CpuData.ofReading (r : SysReading) : CpuData :=
  { timestamp := r.timestamp, usage := r.cpu_usage, frequency := r.cpu_frequency }

/-- The `MemoryData` sample built by `update_memory_history`
(monitor.rs:92-105), including the guarded `usage_percent`:
`if total > 0 { used / total * 100 } else { 0.0 }`. -/
def MemoryData.ofReading (r : SysReading) : MemoryData :=
  { timestamp := r.timestamp
    used := r.mem_used
    total := r.mem_total
    usage_percent :=
      if 0 < r.mem_total then (r.mem_used : ℚ) / (r.mem_total : ℚ) * 100 else 0 }

/-- `SystemMonitor` (monitor.rs:40-46) without the external
`sysinfo::System` field: the two bounded histories and their shared
capacity `max_history`. -/
structure SystemMonitor where
  cpu_history : List CpuData
  memory_history : List MemoryData
  max_history : Nat
  deriving DecidableEq

/-- `SystemMonitor::new` (monitor.rs:49-59): empty histories, capacity 60. -/
def SystemMonitor.new : SystemMonitor :=
  { cpu_history := [], memory_history := [], max_history := 60 }

/-- `SystemMonitor::update_cpu_history` (monitor.rs:77-89). -/
def SystemMonitor.update_cpu_history (m : SystemMonitor) (r : SysReading) :
    SystemMonitor :=
  { m with cpu_history := pushEvict m.max_history m.cpu_history (CpuData.ofReading r) }

/-- `SystemMonitor::update_memory_history` (monitor.rs:91-111). -/
def SystemMonitor.update_memory_history (m : SystemMonitor) (r : SysReading) :
    SystemMonitor :=
  { m with memory_history :=
      pushEvict m.max_history m.memory_history (MemoryData.ofReading r) }

/-- `SystemMonitor::refresh_all` (monitor.rs:61-65): refresh the system
handle (external; its fresh readings are the `r` argument), then update
both histories. -/
def SystemMonitor.refresh_all (m : SystemMonitor) (r : SysReading) : SystemMonitor :=
  (m.update_cpu_history r).update_memory_history r

/-- `SystemMonitor::set_max_history` (monitor.rs:217-226): store the new
capacity, then trim each history from the front while it is too long. -/
def SystemMonitor.set_max_history (m : SystemMonitor) (max : Nat) : SystemMonitor :=
  { cpu_history := trimFront max m.cpu_history
    memory_history := trimFront max m.memory_history
    max_history := max }

/-- `SystemMonitor::memory_usage_percent` (monitor.rs:134-142) as a
function of the system readings `used`, `total`. -/
def memory_usage_percent (used total : Nat) : ℚ :=
  if 0 < total then (used : ℚ) / (total : ℚ) * 100 else 0

/-- The per-disk `usage_percent` computed inside `SystemMonitor::disk_info`
(monitor.rs:172-180): `used = total - available` and the same
`total > 0` guard. -/
def disk_usage_percent (total available : Nat) : ℚ :=
  let used := total - available
  if 0 < total then (used : ℚ) / (total : ℚ) * 100 else 0

/-- `TabIndex` (dashboard.rs:16-22). -/
inductive TabIndex where
  | overview
  | processes
  | network
  | help
  deriving DecidableEq

/-- The `as usize` cast on `TabIndex` (discriminants 0..3 as declared). -/
def TabIndex.toUsize : TabIndex → Nat
  | .overview => 0
  | .processes => 1
  | .network => 2
  | .help => 3

/-- `impl From<usize> for TabIndex` (dashboard.rs:24-34): 0..3 map to the
four tabs; every other index falls to the default arm `_ => Overview`. -/
def TabIndex.fromUsize : Nat → TabIndex
  | 0 => .overview
  | 1 => .processes
  | 2 => .network
  | 3 => .help
  | _ => .overview

/-- The mutable part of `Dashboard` (dashboard.rs:36-40); the read-only
`settings` field is only used by rendering and never mutated. -/
structure Dashboard where
  current_tab : TabIndex
  process_scroll_offset : Nat
  deriving DecidableEq

/-- `Dashboard::new` (dashboard.rs:43-49). -/
def Dashboard.new : Dashboard :=
  { current_tab := .overview, process_scroll_offset := 0 }

/-- `Dashboard::next_tab` (dashboard.rs:300-305). -/
def Dashboard.next_tab (d : Dashboard) : Dashboard :=
  { current_tab := TabIndex.fromUsize ((d.current_tab.toUsize + 1) % 4)
    process_scroll_offset := 0 }

/-- `Dashboard::prev_tab` (dashboard.rs:307-312). -/
def Dashboard.prev_tab (d : Dashboard) : Dashboard :=
  let current := d.current_tab.toUsize
  { current_tab := TabIndex.fromUsize (if current = 0 then 3 else current - 1)
    process_scroll_offset := 0 }

/-- `Dashboard::scroll_up` (dashboard.rs:314-318); `saturating_sub 1` is
`Nat` truncated subtraction. -/
def Dashboard.scroll_up (d : Dashboard) : Dashboard :=
  if d.current_tab = .processes then
    { d with process_scroll_offset := d.process_scroll_offset - 1 }
  else d

/-- `Dashboard::scroll_down` (dashboard.rs:320-324). -/
def Dashboard.scroll_down (d : Dashboard) : Dashboard :=
  if d.current_tab = .processes then
    { d with process_scroll_offset := d.process_scroll_offset + 1 }
  else d

/-- The key codes of `crossterm::event::KeyCode` the sources match on;
`char` covers `KeyCode::Char(c)`. -/
inductive KeyCode where
  | tab
  | backTab
  | esc
  | up
  | down
  | char (c : Char)
  | otherKey
  deriving DecidableEq

/-- The modifier sets the sources match on exactly (`NONE`, `CONTROL`,
`SHIFT`); `otherMods` stands for any further combination, which every
match in the sources sends to its default arm. -/
inductive KeyModifiers where
  | nomod
  | control
  | shift
  | otherMods
  deriving DecidableEq

/-- `crossterm::event::KeyEvent`: the `(code, modifiers)` pair the
sources inspect. -/
structure KeyEvent where
  code : KeyCode
  modifiers : KeyModifiers
  deriving DecidableEq

/-- `crossterm::event::Event`: a key event, or any of the non-keyboard
variants (Mouse/Resize/Focus/Paste), which every core path treats
uniformly (they fall through all `if let Event::Key` tests). -/
inductive Event where
  | key (ke : KeyEvent)
  | nonKey
  deriving DecidableEq

/-- `AppAction` (events.rs:101-111). -/
inductive AppAction where
  | quit
  | nextTab
  | prevTab
  | goToTab (i : Nat)
  | scrollUp
  | scrollDown
  | refresh
  | help
  deriving DecidableEq

/-- `should_quit` (events.rs:54-70). -/
def should_quit (e : Event) : Bool :=
  match e with
  | .key ⟨.char 'q', .nomod⟩ => true
  | .key ⟨.char 'c', .control⟩ => true
  | .key ⟨.esc, .nomod⟩ => true
  | _ => false

/-- `handle_key_event` (events.rs:72-99): the declarative
`(code, modifiers) → action` table; unmapped combinations give `none`. -/
def handle_key_event (event : KeyEvent) : Option AppAction :=
  match event.code, event.modifiers with
  | .char 'q', .nomod => some .quit
  | .char 'c', .control => some .quit
  | .esc, .nomod => some .quit
  | .tab, .nomod => some .nextTab
  | .backTab, .shift => some .prevTab
  | .char '1', .nomod => some (.goToTab 0)
  | .char '2', .nomod => some (.goToTab 1)
  | .char '3', .nomod => some (.goToTab 2)
  | .char '4', .nomod => some (.goToTab 3)
  | .up, .nomod => some .scrollUp
  | .down, .nomod => some .scrollDown
  | .char 'r', .nomod => some .refresh
  | .char 'h', .nomod => some .help
  | _, _ => none

/-- `Dashboard::handle_event` (dashboard.rs:274-298), returning
`some (next state, quit?)`.  The source `match action` has arms for
`Quit`, `NextTab`, `PrevTab`, `ScrollUp`, `ScrollDown`, `Refresh` and
`Help` but NO arm for `GoToTab` (and no catch-all), so the behaviour on a
`GoToTab` action is undefined in the source; that missing arm is `none`
here. -/
def Dashboard.handle_event (d : Dashboard) (event : Event) :
    Option (Dashboard × Bool) :=
  if should_quit event then some (d, true)
  else
    match event with
    | .key key_event =>
      match handle_key_event key_event with
      | some action =>
        match action with
        | .quit => some (d, true)
        | .nextTab => some (d.next_tab, false)
        | .prevTab => some (d.prev_tab, false)
        | .scrollUp => some (d.scroll_up, false)
        | .scrollDown => some (d.scroll_down, false)
        | .refresh => some (d, false)
        | .help => some ({ d with current_tab := .help }, false)
        | .goToTab _ => none
      | none => some (d, false)
    | .nonKey => some (d, false)

/-- `EventHandler` (events.rs:4-8): `last_key_time` as an optional
millisecond timestamp, `key_debounce_ms` the debounce window. -/
structure EventHandler where
  last_key_time : Option Nat
  key_debounce_ms : Nat
  deriving DecidableEq

/-- `EventHandler::new` (events.rs:11-16): no prior trigger, 150 ms window. -/
def EventHandler.new : EventHandler :=
  { last_key_time := none, key_debounce_ms := 150 }

/-- `EventHandler::should_debounce_key` (events.rs:44-50): only the tab
navigation keys `Tab` / `BackTab` are debounced. -/
def should_debounce_key (key_event : KeyEvent) : Bool :=
  match key_event.code with
  | .tab => true
  | .backTab => true
  | _ => false

/-- `EventHandler::next_event` (events.rs:18-42).  `pollRes` models
`poll(100ms)` as `Result<bool>` (`none` = poll error, removed by
`unwrap_or(false)`); `readRes` models `event::read()` (`none` = `Err(_)`);
`now` is `Instant::now()` in milliseconds (`duration_since` becomes `Nat`
truncated subtraction, matching its saturating behaviour).  A debounced
key arriving less than `key_debounce_ms` after the last recorded trigger
is suppressed without touching `last_key_time`; otherwise the trigger
time is recorded and the event is returned. -/
def next_event (h : EventHandler) (pollRes : Option Bool)
    (readRes : Option Event) (now : Nat) : EventHandler × Option Event :=
  if pollRes.getD false then
    match readRes with
    | some event =>
      match event with
      | .key key_event =>
        if should_debounce_key key_event then
          match h.last_key_time with
          | some last_time =>
            if now - last_time < h.key_debounce_ms then (h, none)
            else ({ h with last_key_time := some now }, some event)
          | none => ({ h with last_key_time := some now }, some event)
        else (h, some event)
      | .nonKey => (h, some event)
    | none => (h, none)
  else (h, none)

/-- One debounced trigger: the `Tab` key delivered through
`next_event` (poll ready, read ok) at time `t`. -/
def triggerTab (h : EventHandler) (t : Nat) : EventHandler × Option Event :=
  next_event h (some true) (some (.key ⟨.tab, .nomod⟩)) t

/-- The loop-owned state of `run_app` (main.rs:107-113): dashboard,
event handler, system monitor. -/
structure AppState where
  dashboard : Dashboard
  events : EventHandler
  monitor : SystemMonitor
  deriving DecidableEq

/-- Which arm of the `tokio::select!` in `run_app` (main.rs:118-132)
resolves this iteration: an input poll (with its outcome and the current
time) or a refresh tick (with the fresh system readings). -/
inductive LoopBranch where
  | input (pollRes : Option Bool) (readRes : Option Event) (now : Nat)
  | tick (r : SysReading)
  deriving DecidableEq

/-- One iteration of the `run_app` loop body after the draw call
(main.rs:114-133), returning `some (next state, quit?)`; `none` only on
the undefined `GoToTab` path inherited from `Dashboard::handle_event`.
The input arm routes through `next_event` and `handle_event` and never
touches the monitor; the tick arm calls `refresh_all`. -/
def run_app_iter (s : AppState) (b : LoopBranch) : Option (AppState × Bool) :=
  match b with
  | .input pollRes readRes now =>
    let res := next_event s.events pollRes readRes now
    match res.2 with
    | some event =>
      match s.dashboard.handle_event event with
      | some (d2, quit) =>
        some ({ s with dashboard := d2, events := res.1 }, quit)
      | none => none
    | none => some ({ s with events := res.1 }, false)
  | .tick r => some ({ s with monitor := s.monitor.refresh_all r }, false)

/-! ## Helper lemmas for the history engine -/

/-- One evicting push on a sliding window: pushing `x` onto the last-`cap`
window of `M` gives the last-`cap` window of `M ++ [x]`. -/
theorem pushEvict_drop (cap : Nat) (M : List α) (x : α) :
    pushEvict cap (M.drop (M.length - cap)) x =
      (M ++ [x]).drop (M.length + 1 - cap) := by
  unfold pushEvict
  rcases Nat.lt_or_ge M.length cap with hC | hC
  · rw [Nat.sub_eq_zero_of_le (Nat.le_of_lt hC), List.drop_zero,
      Nat.sub_eq_zero_of_le hC, List.drop_zero]
    simp only [List.length_append, List.length_cons, List.length_nil]
    rw [if_neg (by omega)]
  · have hlen : (M.drop (M.length - cap)).length = cap := by
      rw [List.length_drop]; omega
    have hcond : cap < (M.drop (M.length - cap) ++ [x]).length := by
      rw [List.length_append, hlen]; simp
    rw [if_pos hcond]
    have h1 : (M ++ [x]).drop (M.length - cap) = M.drop (M.length - cap) ++ [x] :=
      List.drop_append_of_le_length (by omega)
    calc (M.drop (M.length - cap) ++ [x]).tail
        = ((M ++ [x]).drop (M.length - cap)).tail := by rw [h1]
      _ = (M ++ [x]).drop (M.length - cap + 1) := List.tail_drop _ _
      _ = (M ++ [x]).drop (M.length + 1 - cap) := by congr 1; omega

/-- Folding evicting pushes over `xs` from an empty history leaves the
last-`cap` window of `xs`. -/
theorem foldl_pushEvict_nil (cap : Nat) (xs : List α) :
    xs.foldl (pushEvict cap) [] = xs.drop (xs.length - cap) := by
  induction xs using List.reverseRecOn with
  | nil => simp
  | append_singleton M x ih =>
    rw [List.foldl_append, List.foldl_cons, List.foldl_nil, ih]
    rw [pushEvict_drop cap M x]
    congr 1
    simp

/-- `trimFront` keeps the last-`cap` window. -/
theorem trimFront_eq_drop (cap : Nat) (l : List α) :
    trimFront cap l = l.drop (l.length - cap) := by
  induction l with
  | nil => simp [trimFront]
  | cons x xs ih =>
    unfold trimFront
    rcases Nat.lt_or_ge cap (x :: xs).length with h | h
    · rw [if_pos h, ih]
      have hx : (x :: xs).length - cap = (xs.length - cap) + 1 := by
        simp only [List.length_cons] at h ⊢; omega
      rw [hx, List.drop_succ_cons]
    · rw [if_neg (by omega), Nat.sub_eq_zero_of_le h, List.drop_zero]

/-- Folding `refresh_all` over a list of readings pushes the derived
samples into each history and leaves the capacity alone. -/
theorem foldl_refresh_all (cap : Nat) (h1 : List CpuData) (h2 : List MemoryData)
    (rs : List SysReading) :
    rs.foldl SystemMonitor.refresh_all ⟨h1, h2, cap⟩ =
      ⟨(rs.map CpuData.ofReading).foldl (pushEvict cap) h1,
       (rs.map MemoryData.ofReading).foldl (pushEvict cap) h2, cap⟩ := by
  induction rs generalizing h1 h2 with
  | nil => rfl
  | cons r rs ih =>
    simp only [List.foldl_cons, List.map_cons]
    rw [← ih]
    rfl

/-- A debounced trigger arriving within the window of the recorded
trigger is dropped and the guard is untouched. -/
theorem triggerTab_suppress (l W t : Nat) (hlt : t - l < W) :
    triggerTab ⟨some l, W⟩ t = (⟨some l, W⟩, none) := by
  show (if t - l < W then ((⟨some l, W⟩ : EventHandler), none)
        else ((⟨some t, W⟩ : EventHandler), some (Event.key ⟨.tab, .nomod⟩))) =
      (⟨some l, W⟩, none)
  rw [if_pos hlt]

/-- A debounced trigger arriving at or past the window emits the event
and records the new trigger time. -/
theorem triggerTab_emit (l W t : Nat) (hge : W ≤ t - l) :
    triggerTab ⟨some l, W⟩ t = (⟨some t, W⟩, some (Event.key ⟨.tab, .nomod⟩)) := by
  show (if t - l < W then ((⟨some l, W⟩ : EventHandler), none)
        else ((⟨some t, W⟩ : EventHandler), some (Event.key ⟨.tab, .nomod⟩))) =
      (⟨some t, W⟩, some (Event.key ⟨.tab, .nomod⟩))
  rw [if_neg (by omega)]

/-! ## Claim theorems -/

/-- C1: for every capacity `C` and every sequence of `n` refreshes on a
monitor with empty histories and `max_history = C`, each history has
length `min n C` and holds exactly the last `min n C` pushed samples in
push (chronological) order — the suffix of the pushed sequence, the
oldest entries having been evicted. -/
theorem history_push_window (C : Nat) (rs : List SysReading) :
    ((rs.foldl SystemMonitor.refresh_all ⟨[], [], C⟩).cpu_history =
        (rs.map CpuData.ofReading).drop (rs.length - C)) ∧
    ((rs.foldl SystemMonitor.refresh_all ⟨[], [], C⟩).cpu_history.length =
        min rs.length C) ∧
    ((rs.foldl SystemMonitor.refresh_all ⟨[], [], C⟩).memory_history =
        (rs.map MemoryData.ofReading).drop (rs.length - C)) ∧
    ((rs.foldl SystemMonitor.refresh_all ⟨[], [], C⟩).memory_history.length =
        min rs.length C) := by
  rw [foldl_refresh_all]
  simp only [foldl_pushEvict_nil, List.length_map, List.length_drop]
  exact ⟨trivial, by omega, trivial, by omega⟩

/-- C2: `set_max_history k` stores the new capacity; on each history,
shrinking to `k` below the current length leaves exactly the `k`
most-recently pushed samples, still in push order, with length `k`;
`k` at or above the current length discards nothing. -/
theorem set_max_history_spec (m : SystemMonitor) (k : Nat) :
    (m.set_max_history k).max_history = k ∧
    (k < m.cpu_history.length →
      (m.set_max_history k).cpu_history =
          m.cpu_history.drop (m.cpu_history.length - k) ∧
      (m.set_max_history k).cpu_history.length = k) ∧
    (m.cpu_history.length ≤ k →
      (m.set_max_history k).cpu_history = m.cpu_history) ∧
    (k < m.memory_history.length →
      (m.set_max_history k).memory_history =
          m.memory_history.drop (m.memory_history.length - k) ∧
      (m.set_max_history k).memory_history.length = k) ∧
    (m.memory_history.length ≤ k →
      (m.set_max_history k).memory_history = m.memory_history) := by
  have hc : (m.set_max_history k).cpu_history = trimFront k m.cpu_history := rfl
  have hm : (m.set_max_history k).memory_history = trimFront k m.memory_history := rfl
  rw [hc, hm, trimFront_eq_drop, trimFront_eq_drop]
  refine ⟨rfl, fun h => ⟨rfl, ?_⟩, fun h => ?_, fun h => ⟨rfl, ?_⟩, fun h => ?_⟩
  · rw [List.length_drop]; omega
  · rw [Nat.sub_eq_zero_of_le h, List.drop_zero]
  · rw [List.length_drop]; omega
  · rw [Nat.sub_eq_zero_of_le h, List.drop_zero]

/-- Witness for C2 at a concrete monitor: three CPU samples and two
memory samples, shrinking to capacity 2 keeps the last two CPU samples
and both memory samples; growing to 5 keeps everything. -/
theorem set_max_history_spec_witness :
    ((SystemMonitor.mk [⟨0, 1, 0⟩, ⟨1, 2, 0⟩, ⟨2, 3, 0⟩] [⟨0, 1, 2, 50⟩, ⟨1, 2, 2, 100⟩] 3).set_max_history 2).cpu_history =
      [⟨1, 2, 0⟩, ⟨2, 3, 0⟩] ∧
    ((SystemMonitor.mk [⟨0, 1, 0⟩, ⟨1, 2, 0⟩, ⟨2, 3, 0⟩] [⟨0, 1, 2, 50⟩, ⟨1, 2, 2, 100⟩] 3).set_max_history 2).cpu_history.length = 2 ∧
    ((SystemMonitor.mk [⟨0, 1, 0⟩, ⟨1, 2, 0⟩, ⟨2, 3, 0⟩] [⟨0, 1, 2, 50⟩, ⟨1, 2, 2, 100⟩] 3).set_max_history 2).memory_history =
      [⟨0, 1, 2, 50⟩, ⟨1, 2, 2, 100⟩] ∧
    ((SystemMonitor.mk [⟨0, 1, 0⟩, ⟨1, 2, 0⟩, ⟨2, 3, 0⟩] [⟨0, 1, 2, 50⟩, ⟨1, 2, 2, 100⟩] 3).set_max_history 5).cpu_history =
      [⟨0, 1, 0⟩, ⟨1, 2, 0⟩, ⟨2, 3, 0⟩] := by
  refine ⟨?_, ?_, ?_, ?_⟩
  · have h := (set_max_history_spec
      (SystemMonitor.mk [⟨0, 1, 0⟩, ⟨1, 2, 0⟩, ⟨2, 3, 0⟩] [⟨0, 1, 2, 50⟩, ⟨1, 2, 2, 100⟩] 3) 2).2.1
      (by decide)
    rw [h.1]; rfl
  · exact ((set_max_history_spec
      (SystemMonitor.mk [⟨0, 1, 0⟩, ⟨1, 2, 0⟩, ⟨2, 3, 0⟩] [⟨0, 1, 2, 50⟩, ⟨1, 2, 2, 100⟩] 3) 2).2.1
      (by decide)).2
  · exact (set_max_history_spec
      (SystemMonitor.mk [⟨0, 1, 0⟩, ⟨1, 2, 0⟩, ⟨2, 3, 0⟩] [⟨0, 1, 2, 50⟩, ⟨1, 2, 2, 100⟩] 3) 2).2.2.2.2
      (by decide)
  · exact (set_max_history_spec
      (SystemMonitor.mk [⟨0, 1, 0⟩, ⟨1, 2, 0⟩, ⟨2, 3, 0⟩] [⟨0, 1, 2, 50⟩, ⟨1, 2, 2, 100⟩] 3) 5).2.2.1
      (by decide)

/-- C3: from every dashboard state, four `next_tab` steps return to the
original active tab, and `next_tab` followed by `prev_tab` returns to the
original active tab; both resulting states have `process_scroll_offset = 0`. -/
theorem tab_cycle_order_four (d : Dashboard) :
    d.next_tab.next_tab.next_tab.next_tab.current_tab = d.current_tab ∧
    d.next_tab.next_tab.next_tab.next_tab.process_scroll_offset = 0 ∧
    d.next_tab.prev_tab.current_tab = d.current_tab ∧
    d.next_tab.prev_tab.process_scroll_offset = 0 := by
  rcases d with ⟨t, off⟩
  cases t <;>
    simp [Dashboard.next_tab, Dashboard.prev_tab, TabIndex.toUsize, TabIndex.fromUsize]

/-- C4: with the Processes tab active, `scroll_up` keeps the tab and sets
the offset to `max (offset - 1) 0` (never below 0; `Nat` truncated
subtraction coincides with the integer `max`), and `scroll_down` adds 1
with no upper clamp; with any other tab active, both are the identity on
the whole state. -/
theorem scroll_semantics (d : Dashboard) :
    (d.current_tab = .processes →
      d.scroll_up = ⟨.processes, d.process_scroll_offset - 1⟩ ∧
      ((d.process_scroll_offset - 1 : Nat) : Int) =
        max ((d.process_scroll_offset : Int) - 1) 0 ∧
      d.scroll_down = ⟨.processes, d.process_scroll_offset + 1⟩) ∧
    (d.current_tab ≠ .processes → d.scroll_up = d ∧ d.scroll_down = d) := by
  rcases d with ⟨t, off⟩
  constructor
  · rintro rfl
    refine ⟨rfl, by omega, rfl⟩
  · intro h
    have hne : (t = TabIndex.processes) = False := by
      simp only [eq_iff_iff, iff_false]; exact h
    unfold Dashboard.scroll_up Dashboard.scroll_down
    simp only [hne, if_false]
    refine ⟨?_, ?_⟩ <;> trivial

/-- Witness for C4: in the Processes tab at offset 5, scrolling up gives
offset 4 and scrolling down gives 6; in the Overview tab at offset 7,
both scrolls leave the state untouched. -/
theorem scroll_semantics_witness :
    (Dashboard.mk .processes 5).scroll_up = Dashboard.mk .processes 4 ∧
    (Dashboard.mk .processes 5).scroll_down = Dashboard.mk .processes 6 ∧
    (Dashboard.mk .overview 7).scroll_up = Dashboard.mk .overview 7 ∧
    (Dashboard.mk .overview 7).scroll_down = Dashboard.mk .overview 7 := by
  refine ⟨?_, ?_, ?_, ?_⟩
  · exact ((scroll_semantics (Dashboard.mk .processes 5)).1 rfl).1
  · exact ((scroll_semantics (Dashboard.mk .processes 5)).1 rfl).2.2
  · exact ((scroll_semantics (Dashboard.mk .overview 7)).2 (by decide)).1
  · exact ((scroll_semantics (Dashboard.mk .overview 7)).2 (by decide)).2

/-- C5 counterexample: in the Processes tab at offset 5, the `h` key
(the `Help` action) moves the active tab to Help — a tab change — yet the
resulting `process_scroll_offset` is still 5, not 0.  So not every
tab-changing action resets the scroll offset. -/
theorem help_keeps_scroll_cex :
    (Dashboard.mk .processes 5).handle_event (.key ⟨.char 'h', .nomod⟩) =
      some (Dashboard.mk .help 5, false) ∧
    TabIndex.help ≠ TabIndex.processes ∧ (5 : Nat) ≠ 0 := by
  decide

/-- C5 amended: `next_tab` and `prev_tab` reset `process_scroll_offset`
to 0 on their tab change, but the `Help` action changes the tab to Help
while leaving `process_scroll_offset` untouched (and `GoToTab` has no
handler arm at all, so it never changes the tab). -/
theorem scroll_reset_amended (d : Dashboard) :
    d.next_tab.process_scroll_offset = 0 ∧
    d.prev_tab.process_scroll_offset = 0 ∧
    d.handle_event (.key ⟨.char 'h', .nomod⟩) =
      some ({ d with current_tab := .help }, false) := by
  exact ⟨rfl, rfl, rfl⟩

/-- C7 counterexample: the `From<usize>` conversion sends 5 to
`Overview` (the default arm), which is neither the clamped value `Help`
nor `Tab(5 mod 4) = Processes`; and a digit-key `GoToTab` action has no
arm in `Dashboard::handle_event`, so applying it sets no tab at all
(the source match is non-exhaustive there). -/
theorem goto_tab_cex :
    TabIndex.fromUsize 5 ≠ TabIndex.help ∧
    TabIndex.fromUsize 5 ≠ TabIndex.fromUsize (5 % 4) ∧
    (Dashboard.mk .overview 0).handle_event (.key ⟨.char '2', .nomod⟩) = none := by
  decide

/-- C7 amended: the digit keys `1`-`4` map to `GoToTab(0..3)`; the
usize-to-tab conversion sends 0..3 to the four tabs in order and every
index at or above 4 to `Overview` (the default arm), not to a clamped or
modulo-4 tab; and `Dashboard::handle_event` has no arm for `GoToTab`, so
the action never reaches the tab state. -/
theorem goto_tab_amended (i : Nat) (d : Dashboard) (h4 : 4 ≤ i) :
    handle_key_event ⟨.char '1', .nomod⟩ = some (.goToTab 0) ∧
    handle_key_event ⟨.char '2', .nomod⟩ = some (.goToTab 1) ∧
    handle_key_event ⟨.char '3', .nomod⟩ = some (.goToTab 2) ∧
    handle_key_event ⟨.char '4', .nomod⟩ = some (.goToTab 3) ∧
    TabIndex.fromUsize 0 = .overview ∧ TabIndex.fromUsize 1 = .processes ∧
    TabIndex.fromUsize 2 = .network ∧ TabIndex.fromUsize 3 = .help ∧
    TabIndex.fromUsize i = .overview ∧
    d.handle_event (.key ⟨.char '1', .nomod⟩) = none := by
  obtain ⟨n, rfl⟩ : ∃ n, i = n + 4 := ⟨i - 4, by omega⟩
  refine ⟨rfl, rfl, rfl, rfl, rfl, rfl, rfl, rfl, rfl, ?_⟩
  rcases d with ⟨t, off⟩
  rfl

/-- Witness for C7's amended theorem at `i = 5` and the initial dashboard
state. -/
theorem goto_tab_amended_witness :
    TabIndex.fromUsize 5 = .overview ∧
    (Dashboard.mk .overview 0).handle_event (.key ⟨.char '1', .nomod⟩) = none := by
  have h := goto_tab_amended 5 (Dashboard.mk .overview 0) (by decide)
  exact ⟨h.2.2.2.2.2.2.2.2.1, h.2.2.2.2.2.2.2.2.2⟩

/-- C6: for the debounced key class (`Tab`/`BackTab`) with window
`W = key_debounce_ms`: after any emitting trigger at time `t`, a second
trigger strictly less than `W` later is suppressed and leaves the guard
(including its last-trigger timestamp) exactly as it was, while a second
trigger at least `W` later emits again; and from a fresh handler,
triggers at `0`, `t1 < 150` and `t2 ≥ 150` emit exactly at the first and
third trigger, the suppressed second trigger leaving the guard state
unchanged. -/
theorem debounce_window (h : EventHandler) (t t1 t2 : Nat)
    (he : ((triggerTab h t).2).isSome = true) (h1 : t1 < 150) (h2 : 150 ≤ t2) :
    (∀ u, u - t < h.key_debounce_ms →
      triggerTab (triggerTab h t).1 u = ((triggerTab h t).1, none)) ∧
    (∀ u, h.key_debounce_ms ≤ u - t →
      ((triggerTab (triggerTab h t).1 u).2).isSome = true) ∧
    ((triggerTab EventHandler.new 0).2).isSome = true ∧
    triggerTab (triggerTab EventHandler.new 0).1 t1 =
      ((triggerTab EventHandler.new 0).1, none) ∧
    ((triggerTab (triggerTab (triggerTab EventHandler.new 0).1 t1).1 t2).2).isSome
      = true := by
  rcases h with ⟨last, W⟩
  have hstate : (triggerTab ⟨last, W⟩ t).1 = ⟨some t, W⟩ := by
    rcases last with _ | l
    · rfl
    · by_cases hlt : t - l < W
      · rw [triggerTab_suppress l W t hlt] at he
        simp at he
      · rw [triggerTab_emit l W t (by omega)]
  rw [hstate]
  refine ⟨fun u hu => ?_, fun u hu => ?_, rfl, ?_, ?_⟩
  · exact triggerTab_suppress t W u hu
  · rw [triggerTab_emit t W u hu]
    rfl
  · have h0 : (triggerTab EventHandler.new 0).1 = ⟨some 0, 150⟩ := rfl
    rw [h0]
    exact triggerTab_suppress 0 150 t1 (by omega)
  · have h0 : (triggerTab EventHandler.new 0).1 = ⟨some 0, 150⟩ := rfl
    rw [h0, triggerTab_suppress 0 150 t1 (by omega),
      triggerTab_emit 0 150 t2 (by omega)]
    rfl

/-- Witness for C6 at the concrete scenario of the spec: fresh handler,
triggers at 0 ms, 100 ms and 200 ms. -/
theorem debounce_window_witness :
    triggerTab (triggerTab EventHandler.new 0).1 100 =
      ((triggerTab EventHandler.new 0).1, none) ∧
    ((triggerTab (triggerTab (triggerTab EventHandler.new 0).1 100).1 200).2).isSome
      = true := by
  have h := debounce_window EventHandler.new 0 100 200 (by decide) (by decide)
    (by decide)
  exact ⟨h.2.2.2.1, h.2.2.2.2⟩

/-- C8: the `Refresh` action leaves every field of the dashboard state
unchanged — but, contrary to the claim's second half, its consumption by
the event loop forces no extra snapshot: the whole input-branch iteration
for the `r` key returns the application state (dashboard, event handler,
and in particular the monitor with both histories) completely unchanged,
with no call into `refresh_all`.  Only the tick branch refreshes. -/
theorem refresh_no_extra_snapshot (s : AppState) (now : Nat) (r : SysReading) :
    run_app_iter s (.input (some true) (some (.key ⟨.char 'r', .nomod⟩)) now) =
      some (s, false) ∧
    run_app_iter s (.tick r) =
      some ({ s with monitor := s.monitor.refresh_all r }, false) := by
  rcases s with ⟨d, h, m⟩
  exact ⟨rfl, rfl⟩

/-- C9: a poll failure (`poll(..)` returning `Err`, erased by
`unwrap_or(false)`) or a read failure (`event::read()` returning `Err`)
makes `next_event` return no event with the handler untouched, and the
event-loop iteration on that branch returns the state unchanged with the
quit flag false — the failure is swallowed and the loop continues. -/
theorem input_errors_swallowed (s : AppState) (readRes : Option Event)
    (now : Nat) :
    next_event s.events none readRes now = (s.events, none) ∧
    next_event s.events (some true) none now = (s.events, none) ∧
    run_app_iter s (.input none readRes now) = some (s, false) ∧
    run_app_iter s (.input (some true) none now) = some (s, false) := by
  rcases s with ⟨d, h, m⟩
  exact ⟨rfl, rfl, rfl, rfl⟩

/-- C10: none of the usage-percent computations divides by zero: with a
reported total of 0, `memory_usage_percent`, the per-disk
`usage_percent` of `disk_info`, and the `usage_percent` stored by
`update_memory_history` all return 0 without evaluating `used / total`;
the division branch runs only under the guard `total > 0`, where it
yields `used / total * 100`. -/
theorem usage_percent_guard (used total avail : Nat) (r : SysReading) :
    (total = 0 →
      memory_usage_percent used total = 0 ∧
      disk_usage_percent total avail = 0) ∧
    (r.mem_total = 0 → (MemoryData.ofReading r).usage_percent = 0) ∧
    (0 < total →
      memory_usage_percent used total = (used : ℚ) / (total : ℚ) * 100 ∧
      disk_usage_percent total avail =
        ((total - avail : Nat) : ℚ) / (total : ℚ) * 100) := by
  refine ⟨fun h0 => ?_, fun hr => ?_, fun hpos => ?_⟩
  · subst h0
    exact ⟨rfl, rfl⟩
  · simp [MemoryData.ofReading, hr]
  · unfold memory_usage_percent disk_usage_percent
    rw [if_pos hpos, if_pos hpos]
    exact ⟨rfl, rfl⟩

/-- Witness for C10 at `total = 0` (both guards) and `total = 4`,
`used = 1`, `avail = 3`, plus a reading with zero total memory. -/
theorem usage_percent_guard_witness :
    memory_usage_percent 7 0 = 0 ∧
    disk_usage_percent 0 3 = 0 ∧
    (MemoryData.ofReading ⟨0, 0, 0, 9, 0⟩).usage_percent = 0 ∧
    memory_usage_percent 1 4 = (1 : ℚ) / 4 * 100 ∧
    disk_usage_percent 4 3 = (1 : ℚ) / 4 * 100 := by
  refine ⟨?_, ?_, ?_, ?_, ?_⟩
  · exact ((usage_percent_guard 7 0 3 ⟨0, 0, 0, 9, 0⟩).1 rfl).1
  · exact ((usage_percent_guard 7 0 3 ⟨0, 0, 0, 9, 0⟩).1 rfl).2
  · exact (usage_percent_guard 7 0 3 ⟨0, 0, 0, 9, 0⟩).2.1 rfl
  · exact ((usage_percent_guard 1 4 3 ⟨0, 0, 0, 9, 0⟩).2.2 (by decide)).1
  · have h := ((usage_percent_guard 1 4 3 ⟨0, 0, 0, 9, 0⟩).2.2 (by decide)).2
    simpa using h

end RTSM
